import Mathlib

/-!
Shallow embedding of the blockchainav chaincode (a Hyperledger Fabric
asset registry): the Asset record model, its JSON serialization, the
ledger access layer (CreateAsset / GetAsset / AssetExists) and the
pagination engine (QueryAssets / ReadAssets), together with theorems
checking the specification's claims against the code.
-/

namespace BlockchainAV

/-- Raw byte strings held in the world state, modelled as character lists. -/
abbrev Bytes := List Char

/-- Go `error` values produced by the chaincode, as a closed taxonomy:
the two sentinel errors, the generated enum-parse error, decode
failures, store I/O faults, and `fmt.Errorf` wrapping with a message. -/
inductive GoErr where
  | errAssetExists
  | errNotFound
  | invalidEnumValue (raw : String)
  | decodingError
  | ioError (msg : String)
  | wrap (msg : String) (e : GoErr)
deriving DecidableEq

/-- The `Asset` struct in declaration order (`CID`, `Features`, `ID`,
`Type` with JSON tags `cid`, `features`, `id`, `type`); `AssetType` is a
string type in Go, so the `type` field is a string here. -/
structure Asset where
  cid : String
  features : String
  id : String
  type : String
deriving DecidableEq

/-- JSON string escaping of the characters that must be escaped (quote
and backslash), as `encoding/json` emits them. -/
def escChars : List Char → List Char
  | [] => []
  | c :: cs => if c = '"' ∨ c = '\\' then '\\' :: c :: escChars cs else c :: escChars cs

/-- One serialized field: the literal part (preceding punctuation, field
name and opening quote) followed by the escaped value and its closing
quote. -/
def fieldChunk (lit : String) (v : String) : Bytes :=
  lit.data ++ escChars v.data ++ ['"']

/-- Modelled from the spec: `json.Marshal` on `Asset` (the
`encoding/json` library is external to the repository). Deterministic
serialization with the fields in struct order — the spec's "value =
serialized Asset object with fields `cid`, `features`, `id`, `type`". -/
def marshalAsset (a : Asset) : Bytes :=
  fieldChunk "\x7b\"cid\":\"" a.cid ++
    (fieldChunk ",\"features\":\"" a.features ++
      (fieldChunk ",\"id\":\"" a.id ++
        (fieldChunk ",\"type\":\"" a.type ++ "\x7d".data)))

/-- Read a JSON string body up to its closing quote, resolving escapes;
returns the decoded characters and the remainder after the quote. -/
def unesc : List Char → Option (List Char × List Char)
  | [] => none
  | c :: cs =>
    if c = '"' then some ([], cs)
    else if c = '\\' then
      match cs with
      | [] => none
      | d :: ds => Option.map (fun p => (d :: p.1, p.2)) (unesc ds)
    else Option.map (fun p => (c :: p.1, p.2)) (unesc cs)

/-- Match an exact literal at the head of the input and return the
remainder, failing otherwise. -/
def dropLit : List Char → List Char → Option (List Char)
  | [], s => some s
  | _ :: _, [] => none
  | c :: p, d :: s => if c = d then dropLit p s else none

/-- Parse one field of the canonical serialized form: the exact literal
(punctuation, field name, opening quote), then the string body up to
its closing quote. -/
def readField (lit : String) (s : Bytes) : Option (String × Bytes) :=
  match dropLit lit.data s with
  | none => none
  | some s1 =>
    match unesc s1 with
    | none => none
    | some p => some (String.mk p.1, p.2)

/-- Modelled from the spec: `json.Unmarshal` into `Asset` (external
library), as a parser of the canonical serialized form produced by
`marshalAsset` — fields `cid`, `features`, `id`, `type` in order. The
struct decode does not validate the enum (in Go, `AssetType` is a plain
string type), so any `type` string is accepted. -/
def unmarshalAsset (b : Bytes) : Option Asset :=
  match readField "\x7b\"cid\":\"" b with
  | none => none
  | some (cidV, s1) =>
    match readField ",\"features\":\"" s1 with
    | none => none
    | some (featuresV, s2) =>
      match readField ",\"id\":\"" s2 with
      | none => none
      | some (idV, s3) =>
        match readField ",\"type\":\"" s3 with
        | none => none
        | some (tyV, s4) =>
          if s4 = "\x7d".data then some ⟨cidV, featuresV, idV, tyV⟩ else none

/-- The transaction context's stub for single-key state access: the
world state, plus injected per-key read faults modelling store I/O
failures of the external store. -/
structure ChaincodeStub where
  state : String → Option Bytes
  readErr : String → Option GoErr

/-- Modelled from the spec: the Fabric shim's `GetState`. Absence of
bytes is the sole not-found signal and a stored empty value reads back
as nil (spec §4.2 together with the §9 note that an empty byte value is
treated as absent); an injected read fault surfaces as an error. -/
def ChaincodeStub.GetState (st : ChaincodeStub) (k : String) :
    Except GoErr (Option Bytes) :=
  match st.readErr k with
  | some e => .error e
  | none =>
    match st.state k with
    | none => .ok none
    | some v => .ok (if v = [] then none else some v)

/-- The shim's `PutState`: store `v` under `k`. -/
def ChaincodeStub.PutState (st : ChaincodeStub) (k : String) (v : Bytes) :
    ChaincodeStub :=
  { st with state := fun k' => if k' = k then some v else st.state k' }

/-- `AssetExists` (source lines 248–255): true when `GetState` returns
non-nil bytes; a read fault is wrapped and propagated. -/
def AssetExists (st : ChaincodeStub) (cid : String) : Except GoErr Bool :=
  match st.GetState cid with
  | .error e => .error (.wrap "read from ledger state" e)
  | .ok v => .ok v.isSome

/-- `GetAsset` (source lines 227–245): nil bytes fail with
`ErrNotFound`; otherwise the bytes are decoded, a decode failure being
wrapped and propagated. -/
def GetAsset (st : ChaincodeStub) (cid : String) : Except GoErr Asset :=
  match st.GetState cid with
  | .error e => .error (.wrap "read from ledger state" e)
  | .ok none => .error .errNotFound
  | .ok (some bs) =>
    match unmarshalAsset bs with
    | none => .error (.wrap "unmarshal asset" .decodingError)
    | some a => .ok a

/-- Modelled from the spec: `ParseAssetType`, generated by go-enum from
the `ENUM(PDF, PE)` directive (the generated file is not under `src/`).
Per spec §4.1 it succeeds iff the input case-sensitively matches a
recognized tag, and the parsed value is its literal string form. -/
def ParseAssetType (raw : String) : Except GoErr String :=
  if raw = "PDF" ∨ raw = "PE" then .ok raw else .error (.invalidEnumValue raw)

/-- `CreateAsset` (source lines 186–224): existence check on the CID,
duplicate rejection, enum parse, then serialize and write under the
CID. The Go function returns only an error; the state mutation happens
through the stub, returned here as the second component. `json.Marshal`
cannot fail on a struct of strings and store write faults are outside
this model, so the final arm always succeeds. -/
def CreateAsset (st : ChaincodeStub) (assetCID assetID assetType features : String) :
    Except GoErr Unit × ChaincodeStub :=
  match AssetExists st assetCID with
  | .error e => (.error e, st)
  | .ok true => (.error .errAssetExists, st)
  | .ok false =>
    match ParseAssetType assetType with
    | .error e => (.error (.wrap "parse asset type" e), st)
    | .ok ty =>
      (.ok (), st.PutState assetCID (marshalAsset ⟨assetCID, features, assetID, ty⟩))

/-- Response metadata of a paginated store call: the store-reported
fetched-record count (an `int32`) and resumption bookmark. -/
structure QueryResponseMetadata where
  fetchedRecordsCount : Int
  bookmark : String
deriving DecidableEq

/-- The result page of `QueryAssets`. -/
structure PaginatedQueryResult where
  records : List Asset
  fetchedRecordsCount : Int
  bookmark : String
deriving DecidableEq

/-- The result page of `ReadAssets` (range-scan mode): records and
bookmark only. -/
structure AssetCursor where
  assets : List Asset
  bookmark : String
deriving DecidableEq

/-- An iterator's contents: each `Next()` call yields either a raw value
or an iterator error; `HasNext` is non-emptiness of the remainder. -/
abbrev Iter := List (Except GoErr Bytes)

/-- The stub's rich-query entry point `GetQueryResultWithPagination`,
as abstract data: for a query string, page size and bookmark, either a
store error or an iterator plus response metadata. -/
structure QueryStub where
  getQueryResultWithPagination :
    String → Int → String → Except GoErr (Iter × QueryResponseMetadata)

/-- The stub's range-scan entry point `GetStateByRangeWithPagination`:
start key, end key, page size and bookmark. -/
structure RangeStub where
  getStateByRangeWithPagination :
    String → String → Int → String → Except GoErr (Iter × QueryResponseMetadata)

/-- `constructQueryResponseFromIterator` (source lines 300–320): drain
the iterator, decoding every value; any `Next` or decode failure aborts
with an error. The Go loop is rendered as structural recursion with the
same order and the same first-error behaviour. -/
def constructQueryResponseFromIterator : Iter → Except GoErr (List Asset)
  | [] => .ok []
  | .error e :: _ => .error (.wrap "read asset from iterator" e)
  | .ok v :: rest =>
    match unmarshalAsset v with
    | none => .error (.wrap "unmarshal asset" .decodingError)
    | some a =>
      match constructQueryResponseFromIterator rest with
      | .error e => .error e
      | .ok as => .ok (a :: as)

/-- `getQueryResultForQueryStringWithPagination` (source lines 275–297).
The boolean records whether the acquired iterator was released: `defer
resultsIterator.Close()` runs on every path after a successful
acquisition, and no iterator exists when acquisition itself fails. -/
def getQueryResultForQueryStringWithPagination (st : QueryStub)
    (queryString : String) (pageSize : Int) (bookmark : String) :
    Except GoErr PaginatedQueryResult × Bool :=
  match st.getQueryResultWithPagination queryString pageSize bookmark with
  | .error e => (.error (.wrap "get query result" e), false)
  | .ok (it, md) =>
    match constructQueryResponseFromIterator it with
    | .error e => (.error e, true)
    | .ok assets => (.ok ⟨assets, md.fetchedRecordsCount, md.bookmark⟩, true)

/-- Go's `int32(x)` conversion on a platform-width `int`: reduction
modulo 2^32 = 4294967296 into the signed range [-2147483648,
2147483648). -/
def int32Wrap (n : Int) : Int := (n + 2147483648) % 4294967296 - 2147483648

/-- `QueryAssets` (source lines 264–271): narrows `pageSize` with
`int32(pageSize)` and delegates. -/
def QueryAssets (st : QueryStub) (queryString : String) (pageSize : Int)
    (bookmark : String) : Except GoErr PaginatedQueryResult × Bool :=
  getQueryResultForQueryStringWithPagination st queryString (int32Wrap pageSize) bookmark

/-- The decode loop inlined in `ReadAssets` (source lines 119–133): the
same algorithm as `constructQueryResponseFromIterator`, with this
variant's error messages. -/
def readAssetsLoop : Iter → Except GoErr (List Asset)
  | [] => .ok []
  | .error e :: _ => .error (.wrap "failed to read asset from iterator" e)
  | .ok v :: rest =>
    match unmarshalAsset v with
    | none => .error (.wrap "failed to unmarshal asset" .decodingError)
    | some a =>
      match readAssetsLoop rest with
      | .error e => .error e
      | .ok as => .ok (a :: as)

/-- `ReadAssets` (source lines 106–139): unbounded-key range scan with
pagination, decoding each value; returns the assets plus the store
bookmark. The boolean records iterator release as in the rich-query
path. -/
def ReadAssets (st : RangeStub) (pageSize : Int) (bookmark : String) :
    Except GoErr AssetCursor × Bool :=
  match st.getStateByRangeWithPagination "" "" pageSize bookmark with
  | .error e => (.error (.wrap "failed to read assets from world state" e), false)
  | .ok (it, md) =>
    match readAssetsLoop it with
    | .error e => (.error e, true)
    | .ok as => (.ok ⟨as, md.bookmark⟩, true)

/-- The spec's words for the engine's success behaviour (§4.3 steps 2
and 5): decode every iterator value pointwise in iterator order; any
iterator error or decode failure yields no sequence. Used as the
reference side of the refinement claims about the pagination engine. -/
def specDecodeSeq : Iter → Option (List Asset)
  | [] => some []
  | .error _ :: _ => none
  | .ok v :: rest =>
    match unmarshalAsset v, specDecodeSeq rest with
    | some a, some as => some (a :: as)
    | _, _ => none

/-- A bookmark encoding a resumption position (bookmarks are opaque
store-issued tokens per the spec's glossary; this store issues unary
position tokens). -/
def mkBookmark (pos : Nat) : String := String.mk (List.replicate pos 'x')

/-- Modelled from the spec: an abstract store satisfying §4.3's
pagination contract over the fixed result sequence `recs` — resume at
the bookmark's position, return up to `pageSize` records, and report
the fetched count and the next-position bookmark (unchanged when
nothing is fetched). -/
def pagedStoreStub (recs : List Bytes) : QueryStub :=
  ⟨fun _ pageSize bm =>
    let page := (recs.drop bm.length).take pageSize.toNat
    .ok (page.map Except.ok,
      ⟨(page.length : Int), mkBookmark (bm.length + page.length)⟩)⟩

/-- Modelled from the spec: the client driving protocol of §8 — call
the paginated query, stop on a page with fetched count 0 and unchanged
bookmark, otherwise feed the returned bookmark into the next call and
concatenate the pages; `fuel` bounds the number of calls. -/
def drivePages (st : QueryStub) (q : String) (ps : Int) :
    Nat → String → Option (List Asset)
  | 0, _ => none
  | fuel + 1, bm =>
    match (getQueryResultForQueryStringWithPagination st q ps bm).1 with
    | .error _ => none
    | .ok r =>
      if r.fetchedRecordsCount = 0 ∧ r.bookmark = bm then some []
      else
        match drivePages st q ps fuel r.bookmark with
        | none => none
        | some rest => some (r.records ++ rest)

/-- A query stub that always returns the fixed iterator and metadata. -/
def constQueryStub (it : Iter) (md : QueryResponseMetadata) : QueryStub :=
  ⟨fun _ _ _ => .ok (it, md)⟩

/-- A range stub that always returns the fixed iterator and metadata. -/
def constRangeStub (it : Iter) (md : QueryResponseMetadata) : RangeStub :=
  ⟨fun _ _ _ _ => .ok (it, md)⟩

/-- A stub holding no state and raising no faults. -/
def emptyStub : ChaincodeStub := ⟨fun _ => none, fun _ => none⟩

/-- A stub holding one nonempty record under key `CID_0`. -/
def oneStub : ChaincodeStub :=
  ⟨fun k => if k = "CID_0" then some ['a'] else none, fun _ => none⟩

/-- A stub whose every read faults. -/
def errStub : ChaincodeStub := ⟨fun _ => none, fun _ => some (.ioError "boom")⟩

/-- A stub holding the canonical serialization of one asset under its
CID. -/
def seededStub : ChaincodeStub :=
  ⟨fun k =>
    if k = "CID_0" then some (marshalAsset ⟨"CID_0", "[]", "ASSET_0", "PDF"⟩)
    else none,
   fun _ => none⟩

/-- A query stub with an empty result set. -/
def emptyQueryStub : QueryStub := ⟨fun _ _ _ => .ok ([], ⟨0, ""⟩)⟩

lemma string_mk_data (s : String) : String.mk s.data = s := rfl

lemma dropLit_append (p s : List Char) : dropLit p (p ++ s) = some s := by
  induction p with
  | nil => simp [dropLit]
  | cons c p ih => simp [dropLit, ih]

lemma unesc_cons (c : Char) (cs : List Char) :
    unesc (c :: cs) =
      if c = '"' then some ([], cs)
      else if c = '\\' then
        match cs with
        | [] => none
        | d :: ds => Option.map (fun p => (d :: p.1, p.2)) (unesc ds)
      else Option.map (fun p => (c :: p.1, p.2)) (unesc cs) := by
  rw [unesc.eq_def]

lemma unesc_esc (s rest : List Char) :
    unesc (escChars s ++ '"' :: rest) = some (s, rest) := by
  induction s with
  | nil => simp [escChars, unesc_cons]
  | cons c cs ih =>
    by_cases h : c = '"' ∨ c = '\\'
    · simp [escChars, h, unesc_cons, ih]
    · push_neg at h
      simp [escChars, h.1, h.2, unesc_cons, ih]

lemma readField_chunk (lit v : String) (rest : Bytes) :
    readField lit (fieldChunk lit v ++ rest) = some (v, rest) := by
  simp [readField, fieldChunk, List.append_assoc, dropLit_append, unesc_esc,
    string_mk_data]

lemma unmarshal_marshal (a : Asset) : unmarshalAsset (marshalAsset a) = some a := by
  cases a
  simp [marshalAsset, unmarshalAsset, readField_chunk]

lemma marshalAsset_ne_nil (a : Asset) : marshalAsset a ≠ [] := by
  intro hc
  simp only [marshalAsset, fieldChunk] at hc
  have h1 := (List.append_eq_nil.mp hc).1
  have h2 := (List.append_eq_nil.mp h1).1
  have h3 := (List.append_eq_nil.mp h2).1
  exact (by decide : "\x7b\"cid\":\"".data ≠ ([] : List Char)) h3

lemma parseAssetType_ok (raw v : String) (h : ParseAssetType raw = .ok v) :
    v = raw := by
  unfold ParseAssetType at h
  split at h
  · injection h with h
    exact h.symm
  · exact Except.noConfusion h

/-- C1: for every tuple (cid, id, typeRaw, features) with a recognized
type tag and no record stored under key cid (and a fault-free read on
cid), CreateAsset succeeds, AssetExists reports true afterwards, and
GetAsset returns an Asset whose fields are exactly the values passed —
round-trip identity through serialization and deserialization. -/
theorem createAsset_roundTrip (st : ChaincodeStub) (cid id ty f : String)
    (hn : st.readErr cid = none) (ha : st.state cid = none)
    (ht : ty = "PDF" ∨ ty = "PE") :
    (CreateAsset st cid id ty f).1 = .ok () ∧
      AssetExists (CreateAsset st cid id ty f).2 cid = .ok true ∧
      GetAsset (CreateAsset st cid id ty f).2 cid = .ok ⟨cid, f, id, ty⟩ := by
  have hget : st.GetState cid = .ok none := by
    simp [ChaincodeStub.GetState, hn, ha]
  have hex : AssetExists st cid = .ok false := by simp [AssetExists, hget]
  have hp : ParseAssetType ty = .ok ty := by simp [ParseAssetType, ht]
  have hcr : CreateAsset st cid id ty f
      = (.ok (), st.PutState cid (marshalAsset ⟨cid, f, id, ty⟩)) := by
    simp [CreateAsset, hex, hp]
  rw [hcr]
  refine ⟨rfl, ?_, ?_⟩
  · simp [AssetExists, ChaincodeStub.GetState, ChaincodeStub.PutState, hn,
      marshalAsset_ne_nil]
  · simp [GetAsset, ChaincodeStub.GetState, ChaincodeStub.PutState, hn,
      marshalAsset_ne_nil, unmarshal_marshal]

/-- Witness for C1 at the spec's Scenario A inputs. -/
theorem createAsset_roundTrip_witness :
    (CreateAsset emptyStub "CID_0" "ASSET_0" "PDF" "[]").1 = .ok () ∧
      AssetExists (CreateAsset emptyStub "CID_0" "ASSET_0" "PDF" "[]").2 "CID_0"
        = .ok true ∧
      GetAsset (CreateAsset emptyStub "CID_0" "ASSET_0" "PDF" "[]").2 "CID_0"
        = .ok ⟨"CID_0", "[]", "ASSET_0", "PDF"⟩ :=
  createAsset_roundTrip emptyStub "CID_0" "ASSET_0" "PDF" "[]" rfl rfl (Or.inl rfl)

/-- C2: for every cid already present in the store (nonempty stored
bytes, fault-free read), CreateAsset with that cid fails with the
already-exists error and returns the state unchanged — no store write,
the existing record untouched. -/
theorem createAsset_alreadyExists (st : ChaincodeStub) (cid id ty f : String)
    (v : Bytes) (hn : st.readErr cid = none) (hv : st.state cid = some v)
    (hne : v ≠ []) :
    CreateAsset st cid id ty f = (.error .errAssetExists, st) := by
  have hget : st.GetState cid = .ok (some v) := by
    simp [ChaincodeStub.GetState, hn, hv, hne]
  simp [CreateAsset, AssetExists, hget]

/-- Witness for C2: re-creating an existing cid is rejected. -/
theorem createAsset_alreadyExists_witness :
    CreateAsset oneStub "CID_0" "ASSET_X" "PDF" "[]"
      = (.error .errAssetExists, oneStub) :=
  createAsset_alreadyExists oneStub "CID_0" "ASSET_X" "PDF" "[]" ['a'] rfl
    (by decide) (by decide)

/-- C3: for every typeRaw matching neither recognized tag (the closed
set PDF, PE) and an absent cid, CreateAsset fails with the wrapped
InvalidEnumValue parse error, the state is unchanged, and AssetExists
on that cid still reports false afterwards. -/
theorem createAsset_invalidType (st : ChaincodeStub) (cid id ty f : String)
    (hn : st.readErr cid = none) (ha : st.state cid = none)
    (h1 : ty ≠ "PDF") (h2 : ty ≠ "PE") :
    CreateAsset st cid id ty f
        = (.error (.wrap "parse asset type" (.invalidEnumValue ty)), st) ∧
      AssetExists st cid = .ok false := by
  have hget : st.GetState cid = .ok none := by
    simp [ChaincodeStub.GetState, hn, ha]
  have hex : AssetExists st cid = .ok false := by simp [AssetExists, hget]
  exact ⟨by simp [CreateAsset, hex, ParseAssetType, h1, h2], hex⟩

/-- Witness for C3 at the spec's Scenario C input EXE. -/
theorem createAsset_invalidType_witness :
    CreateAsset emptyStub "CID_X" "ASSET_X" "EXE" "[]"
        = (.error (.wrap "parse asset type" (.invalidEnumValue "EXE")), emptyStub) ∧
      AssetExists emptyStub "CID_X" = .ok false :=
  createAsset_invalidType emptyStub "CID_X" "ASSET_X" "EXE" "[]" rfl rfl
    (by decide) (by decide)

/-- C7: AssetExists returns true iff nonempty bytes are stored under the
key, absence is reported as false with no error, and a store read fault
is propagated as a wrapped error. -/
theorem assetExists_spec (st : ChaincodeStub) (k : String) :
    (st.readErr k = none →
      ((AssetExists st k = .ok true ↔ ∃ v, st.state k = some v ∧ v ≠ []) ∧
        (st.state k = none → AssetExists st k = .ok false))) ∧
      ∀ e, st.readErr k = some e →
        AssetExists st k = .error (.wrap "read from ledger state" e) := by
  constructor
  · intro hn
    constructor
    · constructor
      · intro h
        cases hst : st.state k with
        | none => simp [AssetExists, ChaincodeStub.GetState, hn, hst] at h
        | some v =>
          by_cases hv : v = []
          · subst hv
            simp [AssetExists, ChaincodeStub.GetState, hn, hst] at h
          · exact ⟨v, rfl, hv⟩
      · rintro ⟨v, hst, hv⟩
        simp [AssetExists, ChaincodeStub.GetState, hn, hst, hv]
    · intro hst
      simp [AssetExists, ChaincodeStub.GetState, hn, hst]
  · intro e he
    simp [AssetExists, ChaincodeStub.GetState, he]

/-- Witness for C7: present key true, absent key false, faulting read
propagated. -/
theorem assetExists_spec_witness :
    AssetExists oneStub "CID_0" = .ok true ∧
      AssetExists oneStub "CID_1" = .ok false ∧
      AssetExists errStub "CID_0"
        = .error (.wrap "read from ledger state" (.ioError "boom")) :=
  ⟨((assetExists_spec oneStub "CID_0").1 rfl).1.mpr ⟨['a'], by decide, by decide⟩,
   ((assetExists_spec oneStub "CID_1").1 rfl).2 (by decide),
   (assetExists_spec errStub "CID_0").2 (.ioError "boom") rfl⟩

/-- C8: with a fault-free read, GetAsset on a cid with no stored bytes
fails with the not-found error (so no successful result is ever
returned for an absent key), and on a cid whose stored bytes decode as
an Asset it succeeds with that Asset. -/
theorem getAsset_spec (st : ChaincodeStub) (cid : String)
    (hn : st.readErr cid = none) :
    (st.GetState cid = .ok none → GetAsset st cid = .error .errNotFound) ∧
      ∀ bs a, st.state cid = some bs → unmarshalAsset bs = some a →
        GetAsset st cid = .ok a := by
  constructor
  · intro h
    simp [GetAsset, h]
  · intro bs a hst hdec
    have hnil : unmarshalAsset ([] : Bytes) = none := by decide
    have hbs : bs ≠ [] := by
      intro hc
      rw [hc, hnil] at hdec
      exact Option.noConfusion hdec
    simp [GetAsset, ChaincodeStub.GetState, hn, hst, hbs, hdec]

/-- Witness for C8: absent key not found; stored canonical bytes decode
back to the asset. -/
theorem getAsset_spec_witness :
    GetAsset emptyStub "CID_0" = .error .errNotFound ∧
      GetAsset seededStub "CID_0" = .ok ⟨"CID_0", "[]", "ASSET_0", "PDF"⟩ :=
  ⟨(getAsset_spec emptyStub "CID_0" rfl).1 rfl,
   (getAsset_spec seededStub "CID_0" rfl).2
     (marshalAsset ⟨"CID_0", "[]", "ASSET_0", "PDF"⟩)
     ⟨"CID_0", "[]", "ASSET_0", "PDF"⟩ (by decide) (unmarshal_marshal _)⟩

/-- C9: every successful CreateAsset writes exactly one store key — the
asset's cid — whose value is the deterministic serialization of the
asset with fields cid, features, id, type; all other keys and the fault
map are untouched. -/
theorem createAsset_write (st : ChaincodeStub) (cid id ty f : String)
    (h : (CreateAsset st cid id ty f).1 = .ok ()) :
    (CreateAsset st cid id ty f).2.state cid
        = some (marshalAsset ⟨cid, f, id, ty⟩) ∧
      (∀ k, k ≠ cid → (CreateAsset st cid id ty f).2.state k = st.state k) ∧
      (CreateAsset st cid id ty f).2.readErr = st.readErr := by
  cases hex : AssetExists st cid with
  | error e => simp [CreateAsset, hex] at h
  | ok b =>
    cases b with
    | true => simp [CreateAsset, hex] at h
    | false =>
      cases hp : ParseAssetType ty with
      | error e => simp [CreateAsset, hex, hp] at h
      | ok ty2 =>
        have hty : ty2 = ty := parseAssetType_ok ty ty2 hp
        subst hty
        refine ⟨?_, ?_, ?_⟩
        · simp [CreateAsset, hex, hp, ChaincodeStub.PutState]
        · intro k hk
          simp [CreateAsset, hex, hp, ChaincodeStub.PutState, hk]
        · simp [CreateAsset, hex, hp, ChaincodeStub.PutState]

/-- Witness for C9, showing the concrete serialized bytes with the
field names cid, features, id, type in order. -/
theorem createAsset_write_witness :
    (CreateAsset emptyStub "CID_0" "ASSET_0" "PDF" "[]").2.state "CID_0"
        = some (marshalAsset ⟨"CID_0", "[]", "ASSET_0", "PDF"⟩) ∧
      marshalAsset ⟨"CID_0", "[]", "ASSET_0", "PDF"⟩
        = "\x7b\"cid\":\"CID_0\",\"features\":\"[]\",\"id\":\"ASSET_0\",\"type\":\"PDF\"\x7d".data ∧
      (CreateAsset emptyStub "CID_0" "ASSET_0" "PDF" "[]").2.state "CID_OTHER"
        = emptyStub.state "CID_OTHER" ∧
      (CreateAsset emptyStub "CID_0" "ASSET_0" "PDF" "[]").2.readErr
        = emptyStub.readErr :=
  ⟨(createAsset_write emptyStub "CID_0" "ASSET_0" "PDF" "[]" rfl).1,
   by decide,
   (createAsset_write emptyStub "CID_0" "ASSET_0" "PDF" "[]" rfl).2.1 "CID_OTHER"
     (by decide),
   (createAsset_write emptyStub "CID_0" "ASSET_0" "PDF" "[]" rfl).2.2⟩

/-- C10: QueryAssets narrows its platform-width pageSize to a signed
32-bit integer before passing it to the store: the store receives
`int32Wrap pageSize`, every value in the int32 range (zero and
negatives included) is forwarded unchanged, and every value is reduced
modulo 2^32 into the signed 32-bit range. -/
theorem queryAssets_int32 (st : QueryStub) (q b : String) (n : Int) :
    QueryAssets st q n b
        = getQueryResultForQueryStringWithPagination st q (int32Wrap n) b ∧
      (-2147483648 ≤ n ∧ n < 2147483648 → int32Wrap n = n) ∧
      int32Wrap n % 4294967296 = n % 4294967296 ∧
      -2147483648 ≤ int32Wrap n ∧ int32Wrap n < 2147483648 := by
  refine ⟨rfl, ?_, ?_, ?_, ?_⟩ <;> (unfold int32Wrap; omega)

/-- Witness for C10: an in-range page size is unchanged and an
out-of-range one wraps (2^32 + 3 becomes 3). -/
theorem queryAssets_int32_witness :
    QueryAssets emptyQueryStub "q" 4294967299 ""
        = getQueryResultForQueryStringWithPagination emptyQueryStub "q"
            (int32Wrap 4294967299) "" ∧
      int32Wrap 3 = 3 ∧
      int32Wrap 4294967299 = 3 :=
  ⟨(queryAssets_int32 emptyQueryStub "q" "" 4294967299).1,
   (queryAssets_int32 emptyQueryStub "q" "" 3).2.1 (by decide),
   by decide⟩

lemma construct_decode_failure (pre : Iter) (as : List Asset) (v : Bytes)
    (suf : Iter) (hpre : specDecodeSeq pre = some as)
    (hv : unmarshalAsset v = none) :
    constructQueryResponseFromIterator (pre ++ .ok v :: suf)
      = .error (.wrap "unmarshal asset" .decodingError) := by
  induction pre generalizing as with
  | nil => simp [constructQueryResponseFromIterator, hv]
  | cons x pre ih =>
    cases x with
    | error e => simp [specDecodeSeq] at hpre
    | ok w =>
      cases hw : unmarshalAsset w with
      | none => simp [specDecodeSeq, hw] at hpre
      | some a =>
        cases hrest : specDecodeSeq pre with
        | none => simp [specDecodeSeq, hw, hrest] at hpre
        | some as2 =>
          simp [constructQueryResponseFromIterator, hw, ih as2 hrest]

lemma readLoop_decode_failure (pre : Iter) (as : List Asset) (v : Bytes)
    (suf : Iter) (hpre : specDecodeSeq pre = some as)
    (hv : unmarshalAsset v = none) :
    readAssetsLoop (pre ++ .ok v :: suf)
      = .error (.wrap "failed to unmarshal asset" .decodingError) := by
  induction pre generalizing as with
  | nil => simp [readAssetsLoop, hv]
  | cons x pre ih =>
    cases x with
    | error e => simp [specDecodeSeq] at hpre
    | ok w =>
      cases hw : unmarshalAsset w with
      | none => simp [specDecodeSeq, hw] at hpre
      | some a =>
        cases hrest : specDecodeSeq pre with
        | none => simp [specDecodeSeq, hw, hrest] at hpre
        | some as2 =>
          simp [readAssetsLoop, hw, ih as2 hrest]

lemma construct_of_specDecode (it : Iter) (as : List Asset)
    (h : specDecodeSeq it = some as) :
    constructQueryResponseFromIterator it = .ok as := by
  induction it generalizing as with
  | nil =>
    simp [specDecodeSeq] at h
    subst h
    simp [constructQueryResponseFromIterator]
  | cons x rest ih =>
    cases x with
    | error e => simp [specDecodeSeq] at h
    | ok w =>
      cases hw : unmarshalAsset w with
      | none => simp [specDecodeSeq, hw] at h
      | some a =>
        cases hrest : specDecodeSeq rest with
        | none => simp [specDecodeSeq, hw, hrest] at h
        | some as2 =>
          simp [specDecodeSeq, hw, hrest] at h
          subst h
          simp [constructQueryResponseFromIterator, hw, ih as2 hrest]

/-- C5: when the n-th iterator value fails to decode as an Asset (all
earlier values decoding), the pagination operations abort: the decode
loop yields the wrapped decoding error, and QueryAssets and ReadAssets
return that error with no page at all, the iterator released. -/
theorem pagination_decode_failure (pre : Iter) (as : List Asset) (v : Bytes)
    (suf : Iter) (md : QueryResponseMetadata) (q b : String) (ps : Int)
    (hpre : specDecodeSeq pre = some as) (hv : unmarshalAsset v = none) :
    constructQueryResponseFromIterator (pre ++ .ok v :: suf)
        = .error (.wrap "unmarshal asset" .decodingError) ∧
      QueryAssets (constQueryStub (pre ++ .ok v :: suf) md) q ps b
        = (.error (.wrap "unmarshal asset" .decodingError), true) ∧
      ReadAssets (constRangeStub (pre ++ .ok v :: suf) md) ps b
        = (.error (.wrap "failed to unmarshal asset" .decodingError), true) := by
  have h1 := construct_decode_failure pre as v suf hpre hv
  have h2 := readLoop_decode_failure pre as v suf hpre hv
  refine ⟨h1, ?_, ?_⟩
  · simp [QueryAssets, getQueryResultForQueryStringWithPagination,
      constQueryStub, h1]
  · simp [ReadAssets, constRangeStub, h2]

/-- Witness for C5: one good record, then an undecodable value, then a
good record; the whole page is refused. -/
theorem pagination_decode_failure_witness :
    constructQueryResponseFromIterator
        ([.ok (marshalAsset ⟨"CID_0", "[]", "ASSET_0", "PDF"⟩)] ++
          .ok ['x'] :: [.ok (marshalAsset ⟨"CID_1", "[]", "ASSET_1", "PE"⟩)])
        = .error (.wrap "unmarshal asset" .decodingError) ∧
      QueryAssets (constQueryStub
          ([.ok (marshalAsset ⟨"CID_0", "[]", "ASSET_0", "PDF"⟩)] ++
            .ok ['x'] :: [.ok (marshalAsset ⟨"CID_1", "[]", "ASSET_1", "PE"⟩)])
          ⟨3, "BM"⟩) "q" 3 ""
        = (.error (.wrap "unmarshal asset" .decodingError), true) ∧
      ReadAssets (constRangeStub
          ([.ok (marshalAsset ⟨"CID_0", "[]", "ASSET_0", "PDF"⟩)] ++
            .ok ['x'] :: [.ok (marshalAsset ⟨"CID_1", "[]", "ASSET_1", "PE"⟩)])
          ⟨3, "BM"⟩) 3 ""
        = (.error (.wrap "failed to unmarshal asset" .decodingError), true) :=
  pagination_decode_failure _ [⟨"CID_0", "[]", "ASSET_0", "PDF"⟩] ['x'] _
    ⟨3, "BM"⟩ "q" "" 3 (by simp [specDecodeSeq, unmarshal_marshal]) (by decide)

/-- C6: when every iterator value decodes, the paginated query returns
every decoded record in iterator order together with the store-reported
fetched count and bookmark passed through verbatim. -/
theorem pagination_success (it : Iter) (md : QueryResponseMetadata)
    (as : List Asset) (q b : String) (ps : Int)
    (h : specDecodeSeq it = some as) :
    getQueryResultForQueryStringWithPagination (constQueryStub it md) q ps b
      = (.ok ⟨as, md.fetchedRecordsCount, md.bookmark⟩, true) := by
  simp [getQueryResultForQueryStringWithPagination, constQueryStub,
    construct_of_specDecode it as h]

/-- Witness for C6: two records decode; the metadata (count 7, bookmark
BM) is echoed verbatim, unparsed. -/
theorem pagination_success_witness :
    getQueryResultForQueryStringWithPagination
        (constQueryStub [.ok (marshalAsset ⟨"CID_0", "[]", "ASSET_0", "PDF"⟩),
          .ok (marshalAsset ⟨"CID_1", "[]", "ASSET_1", "PE"⟩)] ⟨7, "BM"⟩) "q" 2 ""
      = (.ok ⟨[⟨"CID_0", "[]", "ASSET_0", "PDF"⟩,
          ⟨"CID_1", "[]", "ASSET_1", "PE"⟩], 7, "BM"⟩, true) :=
  pagination_success _ ⟨7, "BM"⟩ _ "q" "" 2
    (by simp [specDecodeSeq, unmarshal_marshal])

lemma mkBookmark_length (pos : Nat) : (mkBookmark pos).length = pos := by
  simp [mkBookmark, String.length]

lemma construct_marshal_map (l : List Asset) :
    constructQueryResponseFromIterator ((l.map marshalAsset).map Except.ok)
      = .ok l := by
  induction l with
  | nil => simp [constructQueryResponseFromIterator]
  | cons a rest ih =>
    simp only [List.map_map] at ih ⊢
    simp [constructQueryResponseFromIterator, unmarshal_marshal, ih,
      Function.comp]

lemma gq_paged (assets : List Asset) (q : String) (n : Int) (pos : Nat) :
    (getQueryResultForQueryStringWithPagination
        (pagedStoreStub (assets.map marshalAsset)) q n (mkBookmark pos)).1
      = .ok ⟨(assets.drop pos).take n.toNat,
          (((assets.drop pos).take n.toNat).length : Int),
          mkBookmark (pos + ((assets.drop pos).take n.toNat).length)⟩ := by
  have hmap : ((assets.map marshalAsset).drop pos).take n.toNat
      = ((assets.drop pos).take n.toNat).map marshalAsset := by
    rw [List.map_take, List.map_drop]
  rw [getQueryResultForQueryStringWithPagination]
  simp only [pagedStoreStub, mkBookmark_length, hmap, List.map_map]
  rw [show ((assets.drop pos).take n.toNat).map (Except.ok ∘ marshalAsset)
      = (((assets.drop pos).take n.toNat).map marshalAsset).map Except.ok from
      (List.map_map Except.ok marshalAsset _).symm]
  rw [construct_marshal_map]
  simp

lemma drivePages_from (assets : List Asset) (q : String) (n : Int) (hn : 0 < n) :
    ∀ fuel pos, assets.length - pos < fuel →
      drivePages (pagedStoreStub (assets.map marshalAsset)) q n fuel
          (mkBookmark pos)
        = some (assets.drop pos) := by
  intro fuel
  induction fuel with
  | zero =>
    intro pos h
    omega
  | succ fuel ih =>
    intro pos h
    rw [drivePages, gq_paged assets q n pos]
    dsimp only
    set L := (assets.drop pos).take n.toNat with hL
    by_cases hpos : assets.length ≤ pos
    · have hdrop : assets.drop pos = [] := List.drop_eq_nil_of_le hpos
      have hLnil : L = [] := by rw [hL, hdrop]; simp
      simp [hLnil, hdrop]
    · push_neg at hpos
      have hk : 1 ≤ n.toNat := by omega
      have hlen : L.length = min n.toNat (assets.length - pos) := by
        rw [hL]
        simp [List.length_take, List.length_drop]
      have hL1 : 1 ≤ L.length := by omega
      have hcond : ¬(((L.length : Int) = 0) ∧
          mkBookmark (pos + L.length) = mkBookmark pos) := by
        intro hc
        have h0 := hc.1
        omega
      rw [if_neg hcond, ih (pos + L.length) (by omega)]
      dsimp only
      have happ : L ++ assets.drop (pos + L.length) = assets.drop pos := by
        have h1 : assets.drop (pos + L.length)
            = (assets.drop pos).drop L.length := by
          rw [List.drop_drop, Nat.add_comm]
        rw [h1, hL, List.length_take]
        by_cases hkl : n.toNat ≤ (assets.drop pos).length
        · rw [Nat.min_eq_left hkl, List.take_append_drop]
        · push_neg at hkl
          have hle : (assets.drop pos).length ≤ n.toNat := le_of_lt hkl
          rw [Nat.min_eq_right hle, List.drop_length,
            List.take_of_length_le hle, List.append_nil]
      rw [happ]

/-- C4: feeding every returned bookmark into the next paginated call,
until a page with fetched count 0 and unchanged bookmark appears,
concatenates to exactly the records of a single unbounded scan of the
same stored record set — no duplicates, no omissions. -/
theorem pagination_complete (assets : List Asset) (q : String) (n : Int)
    (fuel : Nat) (hn : 0 < n) (hf : assets.length < fuel) :
    drivePages (pagedStoreStub (assets.map marshalAsset)) q n fuel ""
        = some assets ∧
      constructQueryResponseFromIterator
          ((assets.map marshalAsset).map Except.ok)
        = .ok assets := by
  refine ⟨?_, construct_marshal_map assets⟩
  have h0 : ("" : String) = mkBookmark 0 := rfl
  rw [h0, drivePages_from assets q n hn fuel 0 (by omega)]
  simp

/-- Witness for C4: three records driven with page size 2 (two pages of
2 and 1 plus the empty terminal page) concatenate to the full scan. -/
theorem pagination_complete_witness :
    drivePages (pagedStoreStub ([⟨"CID_0", "[]", "ASSET_0", "PDF"⟩,
          ⟨"CID_1", "[]", "ASSET_1", "PE"⟩,
          ⟨"CID_2", "[]", "ASSET_2", "PDF"⟩].map marshalAsset)) "q" 2 5 ""
        = some [⟨"CID_0", "[]", "ASSET_0", "PDF"⟩,
            ⟨"CID_1", "[]", "ASSET_1", "PE"⟩,
            ⟨"CID_2", "[]", "ASSET_2", "PDF"⟩] ∧
      constructQueryResponseFromIterator
          (([⟨"CID_0", "[]", "ASSET_0", "PDF"⟩,
            ⟨"CID_1", "[]", "ASSET_1", "PE"⟩,
            ⟨"CID_2", "[]", "ASSET_2", "PDF"⟩].map marshalAsset).map Except.ok)
        = .ok [⟨"CID_0", "[]", "ASSET_0", "PDF"⟩,
            ⟨"CID_1", "[]", "ASSET_1", "PE"⟩,
            ⟨"CID_2", "[]", "ASSET_2", "PDF"⟩] :=
  pagination_complete _ "q" 2 5 (by decide) (by decide)

end BlockchainAV
